import Mathlib

/-!
Verification of the force-directed 3D graph core of Furia's 3D View.

The definitions below are a shallow embedding of the second (evolved)
plugin revision in `src/main.ts`: the `GravityGraph` class (graph store and
physics engine), the `LinkParticleSystem` class (particle pool), and
`GraphView.generateUniqueNodeId` (identity resolver).

Modelling conventions:
* JavaScript `Map`s are modelled as association lists in insertion order
  (`alookup` finds the first binding, `aset` replaces in place or appends,
  `adel` removes a key), matching `Map.get` / `Map.set` / `Map.delete`.
* THREE.js objects (`PhysicsMesh`, `THREE.Line`) are heap objects compared
  by reference in the source (`link.from === node`); the model gives every
  allocated object a numeric identity drawn from a counter (`nextId`) and
  stores mesh state in a heap keyed by that identity.
* `Math.random()` draws are passed in as explicit arguments.
* Scalar arithmetic of the discrete parts uses `ℚ`; the physics tick, which
  calls `Math.sqrt` through `length`/`normalize`/`distanceTo`, is modelled
  over `ℝ` with `Real.sqrt`.
* DOM/renderer side effects (materials, label CSS, the scene graph) are
  tracked only as far as the claims need: the scene is the list of object
  identities added to it, labels are the set of node ids owning a label.
-/

namespace Furia

/-! ### Association lists modelling JavaScript `Map` -/

/-- First binding of key `a`, like `Map.get`. -/
def alookup {α β : Type} [DecidableEq α] : List (α × β) → α → Option β
  | [], _ => none
  | (k, v) :: rest, a => if k = a then some v else alookup rest a

/-- Replace the binding of `k` in place, or append it, like `Map.set`. -/
def aset {α β : Type} [DecidableEq α] (k : α) (v : β) : List (α × β) → List (α × β)
  | [] => [(k, v)]
  | (k', v') :: rest => if k' = k then (k, v) :: rest else (k', v') :: aset k v rest

/-- Remove the binding of `k`, like `Map.delete`. -/
def adel {α β : Type} [DecidableEq α] (k : α) (m : List (α × β)) : List (α × β) :=
  m.filter (fun e => e.1 ≠ k)

/-! ### Rational 3-vectors (graph-store side: positions copied around, never rooted) -/

/-- Component-wise rational 3-vector, the discrete image of `THREE.Vector3`. -/
structure V3Q where
  x : ℚ
  y : ℚ
  z : ℚ
deriving DecidableEq

def V3Q.zero : V3Q := ⟨0, 0, 0⟩

/-! ### Graph store (`GravityGraph`, second revision, src/main.ts lines 3547-4219) -/

/-- RGB color triple (image of `THREE.Color`). -/
structure ColorQ where
  r : ℚ
  g : ℚ
  b : ℚ
deriving DecidableEq

def ColorQ.scale (c : ℚ) (col : ColorQ) : ColorQ := ⟨col.r * c, col.g * c, col.b * c⟩

/-- State of one `PhysicsMesh` heap object: kinematics plus the `userData`
fields and material color the source stores on the mesh. -/
structure MeshData where
  pos : V3Q
  vel : V3Q
  force : V3Q
  mass : ℚ
  color : ColorQ
  emissiveIntensity : ℚ
  noteTitle : String
  userUniqueId : String
  userFilePath : Option String
deriving DecidableEq

/-- One entry of `colorPulseData`. -/
structure PulseData where
  phase : ℚ
  speed : ℚ
  baseColor : ColorQ
  pulseColor : ColorQ
  emissiveStrenghtMultiplier : ℚ
deriving DecidableEq

/-- One entry of `this.links`: mesh references (by heap identity) plus the
`THREE.Line` handle and the geometry captured from the endpoint positions
at creation time. -/
structure Link where
  fromM : ℕ
  toM : ℕ
  lineId : ℕ
  geomFrom : V3Q
  geomTo : V3Q
deriving DecidableEq

/-- Observable state of a `GravityGraph` instance.  `heap` holds every
allocated `PhysicsMesh` keyed by identity; `sceneObjs` is the list of object
identities currently added to the scene. -/
structure GState where
  nextId : ℕ
  heap : List (ℕ × MeshData)
  nodes : List (String × ℕ)
  nodeToUniqueId : List (ℕ × String)
  links : List Link
  sceneObjs : List ℕ
  colorPulseData : List (String × PulseData)
  nodeFilePaths : List (String × String)
  labels : List String
deriving DecidableEq

def GState.empty : GState :=
  { nextId := 0, heap := [], nodes := [], nodeToUniqueId := [], links := [],
    sceneObjs := [], colorPulseData := [], nodeFilePaths := [], labels := [] }

/-- Brightness multiplier policy (`calculateBrightnessMultiplier`):
luminance on the base color, quadratic ramp toward darker colors. -/
def calculateBrightnessMultiplier (c : ColorQ) : ℚ :=
  let brightness := c.r * (299/1000) + c.g * (587/1000) + c.b * (114/1000)
  0 + (max 0 ((85/100) - brightness) / (85/100)) ^ 2 * 10

/-- Position of a mesh in the heap (zero placeholder if the identity is
dangling, which never happens for meshes reachable from `nodes`). -/
def posOf (s : GState) (m : ℕ) : V3Q := ((alookup s.heap m).map MeshData.pos).getD V3Q.zero

/-- `GravityGraph.addNode` (lines 3655-3694).  `colorOfPath` abstracts
`getNodeColor`, which factors exactly through the optional file path found in
`nodeFilePaths` (settings-null → white, no path → default color, otherwise
the folder-to-color policy `getNodeColorForFile`); `rPhase` is the
`Math.random() * Math.PI * 2` draw and `rSpeed` the raw `Math.random()` draw
of the pulse speed. -/
def addNode (colorOfPath : Option String → ColorQ) (rPhase rSpeed : ℚ)
    (uniqueId : String) (filePath : Option String) (displayName : Option String)
    (s : GState) : GState :=
  let nodeTitle := displayName.getD uniqueId
  let paths :=
    match filePath with
    | some fp => aset uniqueId fp s.nodeFilePaths
    | none => s.nodeFilePaths
  let nodeColor := colorOfPath (alookup paths uniqueId)
  let meshId := s.nextId
  let mesh : MeshData :=
    { pos := V3Q.zero, vel := V3Q.zero, force := V3Q.zero, mass := 1,
      color := nodeColor, emissiveIntensity := 1/2,
      noteTitle := nodeTitle, userUniqueId := uniqueId, userFilePath := filePath }
  let multiplier := calculateBrightnessMultiplier nodeColor
  { nextId := meshId + 1,
    heap := aset meshId mesh s.heap,
    nodes := aset uniqueId meshId s.nodes,
    nodeToUniqueId := aset meshId uniqueId s.nodeToUniqueId,
    links := s.links,
    sceneObjs := s.sceneObjs ++ [meshId],
    colorPulseData := aset uniqueId
      { phase := rPhase, speed := 1/2 + rSpeed * (3/2),
        baseColor := nodeColor, pulseColor := ColorQ.scale multiplier nodeColor,
        emissiveStrenghtMultiplier := multiplier } s.colorPulseData,
    nodeFilePaths := paths,
    labels := s.labels }

/-- The duplicate test of `addLink`: an existing link joins the same two
meshes in either orientation. -/
def sameEnds (l : Link) (fm tm : ℕ) : Prop :=
  (l.fromM = fm ∧ l.toM = tm) ∨ (l.fromM = tm ∧ l.toM = fm)

instance (l : Link) (fm tm : ℕ) : Decidable (sameEnds l fm tm) := by
  unfold sameEnds; infer_instance

/-- `GravityGraph.addLink` (lines 3753-3784): reject absent endpoints, skip
unordered-pair duplicates before allocating the line. -/
def addLink (fromUniqueId toUniqueId : String) (s : GState) : GState :=
  match alookup s.nodes fromUniqueId, alookup s.nodes toUniqueId with
  | some fromMesh, some toMesh =>
    if s.links.any (fun l => decide (sameEnds l fromMesh toMesh)) then s
    else
      let lineId := s.nextId
      { s with
        nextId := lineId + 1,
        links := s.links ++
          [{ fromM := fromMesh, toM := toMesh, lineId := lineId,
             geomFrom := posOf s fromMesh, geomTo := posOf s toMesh }],
        sceneObjs := s.sceneObjs ++ [lineId] }
  | _, _ => s

/-- `GravityGraph.hasNode` (line 4104). -/
def hasNode (uniqueId : String) (s : GState) : Bool := (alookup s.nodes uniqueId).isSome

/-- `GravityGraph.removeNode` (lines 4113-4157): cascade removal of every
link touching the mesh, then clean all keyed maps. -/
def removeNode (uniqueId : String) (s : GState) : GState :=
  match alookup s.nodes uniqueId with
  | none => s
  | some node =>
    let removed := s.links.filter (fun l => l.fromM = node ∨ l.toM = node)
    { s with
      links := s.links.filter (fun l => ¬(l.fromM = node ∨ l.toM = node)),
      sceneObjs := (s.sceneObjs.filter
        (fun o => ¬ removed.any (fun l => l.lineId = o))).filter (fun o => o ≠ node),
      nodes := adel uniqueId s.nodes,
      nodeToUniqueId := adel node s.nodeToUniqueId,
      colorPulseData := adel uniqueId s.colorPulseData,
      nodeFilePaths := adel uniqueId s.nodeFilePaths,
      labels := s.labels.filter (fun t => t ≠ uniqueId) }

/-- Remove the first list element satisfying `p` (the `findIndex`/`splice`
pair of `removeLink`). -/
def removeFirst {α : Type} (p : α → Bool) : List α → List α
  | [] => []
  | a :: rest => if p a then rest else a :: removeFirst p rest

/-- `GravityGraph.removeLink` (lines 4159-4184): no-op when an endpoint or
the link is absent, otherwise splice the first matching link out. -/
def removeLink (fromUniqueId toUniqueId : String) (s : GState) : GState :=
  match alookup s.nodes fromUniqueId, alookup s.nodes toUniqueId with
  | some fromMesh, some toMesh =>
    match s.links.find? (fun l => decide (sameEnds l fromMesh toMesh)) with
    | some link =>
      { s with
        links := removeFirst (fun l => decide (sameEnds l fromMesh toMesh)) s.links,
        sceneObjs := s.sceneObjs.filter (fun o => o ≠ link.lineId) }
    | none => s
  | _, _ => s

/-- `GravityGraph.renameNode` (lines 4186-4218): move the node in the maps,
update `userData`, move the pulse entry, delete the old file path (setting
the new one only when `newFilePath` is supplied), drop the label. -/
def renameNode (oldUniqueId newUniqueId : String) (newFilePath : Option String)
    (s : GState) : GState :=
  match alookup s.nodes oldUniqueId with
  | none => s
  | some node =>
    let heap' :=
      match alookup s.heap node with
      | some md =>
        aset node
          { md with
            userUniqueId := newUniqueId,
            userFilePath := match newFilePath with
              | some fp => some fp
              | none => md.userFilePath } s.heap
      | none => s.heap
    let paths₁ := adel oldUniqueId s.nodeFilePaths
    { s with
      heap := heap',
      nodes := aset newUniqueId node (adel oldUniqueId s.nodes),
      colorPulseData :=
        match alookup s.colorPulseData oldUniqueId with
        | some pd => aset newUniqueId pd (adel oldUniqueId s.colorPulseData)
        | none => s.colorPulseData,
      nodeFilePaths :=
        match newFilePath with
        | some fp => aset newUniqueId fp paths₁
        | none => paths₁,
      labels := s.labels.filter (fun t => t ≠ oldUniqueId) }

/-- At most one link joins any unordered pair of meshes. -/
def noDupLinks (links : List Link) : Prop :=
  links.Pairwise (fun l l' => ¬ sameEnds l l'.fromM l'.toM)

instance (links : List Link) : Decidable (noDupLinks links) := by
  unfold noDupLinks; exact List.instDecidablePairwise links

/-- `GravityGraph.calcLinkScale` (lines 4094-4101). -/
def calcLinkScale (baseNodeScale linkScaleMultiplier : ℚ) (connectionCount : ℕ) : ℚ :=
  if connectionCount ≤ 1 then 1
  else baseNodeScale + (connectionCount : ℚ) * linkScaleMultiplier

/-- Connection counting of `updateAllNodes` (lines 3892-3901): every link
whose two endpoints resolve through the reverse-lookup map bumps both
endpoint counts. -/
def connectionCounts (ntu : List (ℕ × String)) (links : List Link) : List (String × ℕ) :=
  links.foldl
    (fun m l =>
      match alookup ntu l.fromM, alookup ntu l.toM with
      | some fromId, some toId =>
        let m₁ := aset fromId ((alookup m fromId).getD 0 + 1) m
        aset toId ((alookup m₁ toId).getD 0 + 1) m₁
      | _, _ => m)
    []

/-- Scale written to `node.scale` each tick (lines 3984-3987). -/
def emittedScale (baseNodeScale linkScaleMultiplier : ℚ) (counts : List (String × ℕ))
    (uniqueId : String) : ℚ :=
  calcLinkScale baseNodeScale linkScaleMultiplier ((alookup counts uniqueId).getD 0)

/-! ### Identity resolver (`GraphView.generateUniqueNodeId`, lines 2584-2618) -/

/-- Split a character list at every occurrence of `sep`, the semantics of
the JavaScript `String.prototype.split` with a one-character separator. -/
def splitChar (sep : Char) : List Char → List (List Char)
  | [] => [[]]
  | c :: rest =>
    match splitChar sep rest with
    | [] => [[]]
    | cur :: parts => if c = sep then [] :: cur :: parts else (c :: cur) :: parts

/-- JavaScript `path.split('/')`. -/
def jsSplit (sep : Char) (s : String) : List String :=
  (splitChar sep s.data).map (fun l => String.mk l)

/-- JavaScript `path.split('/').slice(-2, -1)[0] || 'root'`: the parent
folder segment, or `"root"` when the path has no parent segment or that
segment is the empty string. -/
def parentFolder (path : String) : String :=
  let parts := jsSplit '/' path
  if parts.length ≥ 2 then
    let f := parts.getD (parts.length - 2) ""
    if f = "" then "root" else f
  else "root"

/-- State owned by `GraphView` for identity resolution. -/
structure Resolver where
  pathToUniqueId : List (String × String)
  uniqueIdToPath : List (String × String)
  nodeNameCounter : List (String × ℕ)
deriving DecidableEq

def Resolver.empty : Resolver := ⟨[], [], []⟩

/-- The `while (uniqueIdToPath.has(testId))` search: try
`base <space> c`, `base <space> (c+1)`, … until a free id is found.  The JS
loop is unbounded; the model carries fuel, which the callers set to more
candidates than the map has entries. -/
def suffixSearch (m : List (String × String)) (base : String) : ℕ → ℕ → String
  | 0, c => base ++ " " ++ Nat.repr c
  | fuel + 1, c =>
    let testId := base ++ " " ++ Nat.repr c
    if (alookup m testId).isSome then suffixSearch m base fuel (c + 1) else testId

/-- The whole duplicate-id disambiguation of lines 2600-2610: start from
`basename (folder)` and add a numeric suffix while that string is a key of
`uniqueIdToPath`. -/
def disambiguate (m : List (String × String)) (base : String) : String :=
  if (alookup m base).isSome then suffixSearch m base (m.length + 1) 1 else base

/-- `GraphView.generateUniqueNodeId` (lines 2584-2618). -/
def generateUniqueNodeId (basename path : String) (r : Resolver) : String × Resolver :=
  match alookup r.pathToUniqueId path with
  | some existing => (existing, r)
  | none =>
    let count := (alookup r.nodeNameCounter basename).getD 0
    let counter' := aset basename (count + 1) r.nodeNameCounter
    let uniqueId :=
      if count = 0 then basename
      else disambiguate r.uniqueIdToPath (basename ++ " (" ++ parentFolder path ++ ")")
    (uniqueId,
      { pathToUniqueId := aset path uniqueId r.pathToUniqueId,
        uniqueIdToPath := aset uniqueId path r.uniqueIdToPath,
        nodeNameCounter := counter' })

/-! ### Particle flow system (`LinkParticleSystem`, lines 4223-4389)

The pool is the list of per-slot `visible` flags (slot `i` of `particlePool`);
a live particle stores its slot index, its link's endpoint mesh identities,
progress, speed, and direction.  Mesh positions and the cosmetic sin-based
scale pulse are renderer state outside the claims and are not tracked. -/

structure Particle where
  slot : ℕ
  linkFrom : ℕ
  linkTo : ℕ
  progress : ℚ
  speed : ℚ
  direction : ℤ
deriving DecidableEq

structure PSys where
  particles : List Particle
  pool : List Bool
  maxParticles : ℕ
  spawnRate : ℚ
  lastSpawn : ℚ
  particlesDelay : ℚ
deriving DecidableEq

/-- `LinkParticleSystem.spawnParticle` (lines 4261-4296): reject when the
live count is at the maximum or no invisible pool slot exists; otherwise
bind the first free slot, with progress 0 (direction is the constant 1,
reverse travel is disabled) and the randomized speed
`0.3 + Math.random() * 0.4` (`rSpeed` is the raw draw). -/
def spawnParticle (rSpeed : ℚ) (linkFrom linkTo : ℕ) (s : PSys) : PSys :=
  if s.particles.length ≥ s.maxParticles then s
  else
    match s.pool.findIdx? (fun visible => visible = false) with
    | none => s
    | some i =>
      let direction : ℤ := 1
      let startProgress : ℚ := if direction = 1 then 0 else 1
      let p : Particle :=
        { slot := i, linkFrom := linkFrom, linkTo := linkTo,
          progress := startProgress, speed := 3/10 + rSpeed * (4/10),
          direction := direction }
      { s with pool := s.pool.set i true, particles := s.particles ++ [p] }

/-- Progress advance of one particle inside `update` (line 4337). -/
def advanceParticle (deltaTime : ℚ) (p : Particle) : Particle :=
  { p with progress := p.progress + p.speed * deltaTime * (p.direction : ℚ) }

/-- Retirement test of lines 4340-4341. -/
def retiredP (p : Particle) : Bool :=
  (p.direction = 1 ∧ p.progress ≥ 1) ∨ (p.direction = -1 ∧ p.progress ≤ 0)

/-- The synchronous effect of `LinkParticleSystem.update` (lines 4308-4356):
when the spawn timer fires and links exist, the spawn attempts are deferred
through `setTimeout` (they are separate later `spawnParticle` calls, not
part of this step) and `lastSpawn` is stamped; every in-flight particle
advances and is retired — slot hidden, spliced out — once its progress
leaves [0,1). -/
def update (deltaTime currentTime : ℚ) (anyLinks : Bool) (s : PSys) : PSys :=
  let lastSpawn' :=
    if currentTime - s.lastSpawn > s.spawnRate ∧ anyLinks then currentTime else s.lastSpawn
  let advanced := s.particles.map (advanceParticle deltaTime)
  let retiredOnes := advanced.filter retiredP
  { s with
    lastSpawn := lastSpawn',
    particles := advanced.filter (fun p => ¬ retiredP p),
    pool := retiredOnes.foldl (fun pool p => pool.set p.slot false) s.pool }

/-- `LinkParticleSystem.clearParticles` (lines 4372-4377). -/
def clearParticles (s : PSys) : PSys :=
  { s with
    pool := s.particles.foldl (fun pool p => pool.set p.slot false) s.pool,
    particles := [] }

/-- `LinkParticleSystem.dispose` (lines 4380-4388): clear the live list and
drop every pool slot. -/
def disposePool (s : PSys) : PSys :=
  let s₁ := clearParticles s
  { s₁ with pool := [] }

/-- `LinkParticleSystem.initializeParticlePool` (lines 4248-4259): dispose,
then pre-create `maxParticles` invisible slots. -/
def initializeParticlePool (s : PSys) : PSys :=
  let s₁ := disposePool s
  { s₁ with pool := List.replicate s.maxParticles false }

/-- `LinkParticleSystem.setMaxParticles` (lines 4363-4366). -/
def setMaxParticles (n : ℕ) (s : PSys) : PSys :=
  initializeParticlePool { s with maxParticles := n }

/-- The particle-system operations available after a pool rebuild (spawn
attempts and update steps). -/
inductive POp : Type
  | spawn (rSpeed : ℚ) (linkFrom linkTo : ℕ)
  | upd (deltaTime currentTime : ℚ) (anyLinks : Bool)

def applyPOp (s : PSys) : POp → PSys
  | POp.spawn rSpeed lf lt => spawnParticle rSpeed lf lt s
  | POp.upd dt t anyLinks => update dt t anyLinks s

def applyPOps (ops : List POp) (s : PSys) : PSys := ops.foldl applyPOp s

/-! ### Physics tick (`calculateForces` / `updateAllNodes`, lines 3796-3963)

The per-tick arithmetic calls `Math.sqrt` (through `distanceTo`, `length`,
`normalize`), so this part of the model lives over `ℝ` with `Real.sqrt`;
JavaScript numbers are idealized as reals. -/

structure V3R where
  x : ℝ
  y : ℝ
  z : ℝ

def V3R.add (a b : V3R) : V3R := ⟨a.x + b.x, a.y + b.y, a.z + b.z⟩

def V3R.sub (a b : V3R) : V3R := ⟨a.x - b.x, a.y - b.y, a.z - b.z⟩

def V3R.smul (c : ℝ) (v : V3R) : V3R := ⟨c * v.x, c * v.y, c * v.z⟩

def V3R.zero : V3R := ⟨0, 0, 0⟩

def V3R.neg (v : V3R) : V3R := ⟨-v.x, -v.y, -v.z⟩

/-- `THREE.Vector3.lengthSq`. -/
def lengthSq (v : V3R) : ℝ := v.x * v.x + v.y * v.y + v.z * v.z

/-- `THREE.Vector3.length`. -/
noncomputable def lengthV (v : V3R) : ℝ := Real.sqrt (lengthSq v)

/-- `THREE.Vector3.distanceTo`. -/
noncomputable def distanceTo (a b : V3R) : ℝ := lengthV (V3R.sub a b)

/-- `THREE.Vector3.normalize`: divide by the length. -/
noncomputable def normalizeV (v : V3R) : V3R := V3R.smul (1 / lengthV v) v

open Classical in
/-- The body of the inner repulsion loop of `calculateForces`
(lines 3804-3821) for one unordered pair: given the repulsion coefficient,
the two positions and the two accumulated forces, either skip the pair
(distance under the 0.1 epsilon) or add
`repulsion / distance²` along the normalized separation vector to node A's
force and subtract it from node B's.  The skip happens before any division,
so no force component is ever computed from a near-zero distance. -/
noncomputable def repulsionPairUpdate (repulsion : ℝ) (pa pb fa fb : V3R) : V3R × V3R :=
  let distance := distanceTo pa pb
  if distance < 1/10 then (fa, fb)
  else
    let repulsionForce := repulsion / (distance * distance)
    let direction := V3R.smul repulsionForce (normalizeV (V3R.sub pa pb))
    (V3R.add fa direction, V3R.sub fb direction)

/-- The vector the pair contributes to node A (node B receives its
negation); zero for skipped pairs. -/
noncomputable def repulsionContribution (repulsion : ℝ) (pa pb : V3R) : V3R :=
  ((repulsionPairUpdate repulsion pa pb V3R.zero V3R.zero).1)

/-- Kinematic state of one node inside `updateAllNodes`: position, velocity,
accumulated force, and membership in `frozenNodes`. -/
structure PNode where
  pos : V3R
  vel : V3R
  force : V3R
  frozen : Bool

open Classical in
/-- Velocity after the integration arithmetic of lines 3917-3936:
`velocity += force`, then the speed-squared-proportional friction with its
`max(0, ·)` clamp (skipped when the friction coefficient is not positive or
the squared speed is at most 0.0001), then the max-speed rescale. -/
noncomputable def postIntegrationVel (friction maxSpeed : ℝ) (n : PNode) : V3R :=
  let v₁ := V3R.add n.vel n.force
  let v₂ :=
    if friction > 0 then
      let speedSq := lengthSq v₁
      if speedSq > 1/10000 then
        let speed := Real.sqrt speedSq
        let frictionMagnitude := friction * speedSq
        let frictionScale := 1 - frictionMagnitude / speed
        V3R.smul (max 0 frictionScale) v₁
      else v₁
    else v₁
  let currentSpeed := lengthV v₂
  if currentSpeed > maxSpeed then V3R.smul maxSpeed (normalizeV v₂) else v₂

open Classical in
/-- The per-node physics step of `updateAllNodes` (lines 3909-3963).  A
frozen node skips integration and unfreezes when the squared net force
exceeds `velocityTreshold² * 100`; an active node integrates, then (with the
freeze policy on) freezes — velocity and force zeroed — exactly when its
squared speed is under `velocityTreshold²` and its squared force under
`velocityTreshold² * 100`; with the policy off only the small-velocity
zeroing applies.  `position += velocity` runs last with the possibly-zeroed
velocity. -/
noncomputable def updateNodePhysics (freeze : Bool) (friction maxSpeed velocityTreshold : ℝ)
    (n : PNode) : PNode :=
  if n.frozen then
    if lengthSq n.force > velocityTreshold * velocityTreshold * 100 then
      { n with frozen := false }
    else n
  else
    let v := postIntegrationVel friction maxSpeed n
    if freeze then
      if lengthSq v < velocityTreshold * velocityTreshold ∧
          lengthSq n.force < velocityTreshold * velocityTreshold * 100 then
        { pos := n.pos, vel := V3R.zero, force := V3R.zero, frozen := true }
      else { pos := V3R.add n.pos v, vel := v, force := n.force, frozen := false }
    else
      if lengthSq v < velocityTreshold * velocityTreshold then
        { pos := n.pos, vel := V3R.zero, force := n.force, frozen := false }
      else { pos := V3R.add n.pos v, vel := v, force := n.force, frozen := false }

/-! ### Concrete instances used to exercise the model -/

/-- Constant white color policy (the `currentSettings = null` branch of
`getNodeColor`). -/
def cfWhite : Option String → ColorQ := fun _ => ⟨1, 1, 1⟩

/-- One `addNode "a"` call on the empty store. -/
def c1Once : GState := addNode cfWhite 0 0 "a" none none GState.empty

/-- A second `addNode "a"` call with identical arguments and random draws. -/
def c1Twice : GState := addNode cfWhite 0 0 "a" none none c1Once

/-- A store holding node "X" with file path "p". -/
def sX : GState := addNode cfWhite 0 0 "X" (some "p") none GState.empty

/-- The mesh created for "X" in `sX`. -/
def mdX : MeshData :=
  { pos := V3Q.zero, vel := V3Q.zero, force := V3Q.zero, mass := 1,
    color := ⟨1, 1, 1⟩, emissiveIntensity := 1/2,
    noteTitle := "X", userUniqueId := "X", userFilePath := some "p" }

/-- The pulse entry created for "X" in `sX` (zero random draws; white has
luminance 1, so the brightness multiplier is 0). -/
def pdX : PulseData :=
  { phase := 0, speed := 1/2, baseColor := ⟨1, 1, 1⟩,
    pulseColor := ⟨0, 0, 0⟩, emissiveStrenghtMultiplier := 0 }

/-- Three nodes A, B, C with links A–B and B–C (the removal scenario of the
spec). -/
def sABC : GState :=
  addLink "B" "C" (addLink "A" "B"
    (addNode cfWhite 0 0 "C" none none
      (addNode cfWhite 0 0 "B" none none
        (addNode cfWhite 0 0 "A" none none GState.empty))))

/-- Resolver after `resolve("a", "f/a")`. -/
def resA : Resolver := (generateUniqueNodeId "a" "f/a" Resolver.empty).2

/-- Second occurrence of basename "a", path "b/a". -/
def resB : String × Resolver := generateUniqueNodeId "a" "b/a" resA

/-- First occurrence of basename "a (b)", path "c/a (b)". -/
def resC : String × Resolver := generateUniqueNodeId "a (b)" "c/a (b)" resB.2

/-- A particle system with two free slots and one in-flight particle. -/
def psW : PSys :=
  { particles := [⟨0, 5, 6, 1/2, 1/2, 1⟩], pool := [true, false],
    maxParticles := 2, spawnRate := 1000, lastSpawn := 0, particlesDelay := 0 }

/-- Active node with a small residual velocity and a force between the
freeze threshold and 100× the freeze threshold. -/
noncomputable def n0 : PNode := ⟨V3R.zero, ⟨-49/10000, 0, 0⟩, ⟨1/200, 0, 0⟩, false⟩

/-- Frozen node being pushed by a large force. -/
noncomputable def n1 : PNode := ⟨V3R.zero, V3R.zero, ⟨1, 0, 0⟩, true⟩

/-- Positions at distance exactly 1. -/
noncomputable def pa0 : V3R := ⟨0, 0, 0⟩

noncomputable def pb0 : V3R := ⟨1, 0, 0⟩

/-! ### Association-list lemmas -/

theorem alookup_aset_self {α β : Type} [DecidableEq α] (k : α) (v : β) (m : List (α × β)) :
    alookup (aset k v m) k = some v := by
  induction m with
  | nil => simp [aset, alookup]
  | cons e rest ih =>
    by_cases h : e.1 = k
    · simp [aset, h, alookup]
    · simp [aset, h, alookup, ih]

theorem alookup_aset_other {α β : Type} [DecidableEq α] (k k' : α) (v : β) (m : List (α × β))
    (h : k' ≠ k) : alookup (aset k v m) k' = alookup m k' := by
  have hk : ¬ k = k' := fun hh => h hh.symm
  induction m with
  | nil => simp [aset, alookup, hk]
  | cons e rest ih =>
    by_cases he : e.1 = k
    · subst he
      simp [aset, alookup, hk]
    · simp only [aset, if_neg he, alookup]
      by_cases he' : e.1 = k'
      · simp [he']
      · simp [he', ih]

theorem alookup_adel_self {α β : Type} [DecidableEq α] (k : α) (m : List (α × β)) :
    alookup (adel k m) k = none := by
  induction m with
  | nil => simp [adel, alookup]
  | cons e rest ih =>
    by_cases h : e.1 = k
    · simpa [adel, h] using ih
    · simpa [adel, h, alookup] using ih

theorem alookup_adel_other {α β : Type} [DecidableEq α] (k k' : α) (m : List (α × β))
    (h : k' ≠ k) : alookup (adel k m) k' = alookup m k' := by
  induction m with
  | nil => simp [adel, alookup]
  | cons e rest ih =>
    by_cases he : e.1 = k
    · subst he
      have hk : ¬ e.1 = k' := fun hh => h hh.symm
      simpa [adel, alookup, hk] using ih
    · have hcons : adel k (e :: rest) = e :: adel k rest := by
        simp [adel, List.filter_cons, he]
      rw [hcons]
      by_cases he' : e.1 = k'
      · simp [alookup, he']
      · simp [alookup, he', ih]

/-! ### Link-operation helper lemmas -/

theorem addLink_noop_left (a b : String) (s : GState) (h : alookup s.nodes a = none) :
    addLink a b s = s := by
  unfold addLink; rw [h]

theorem addLink_noop_right (a b : String) (s : GState) (h : alookup s.nodes b = none) :
    addLink a b s = s := by
  unfold addLink; rw [h]; cases alookup s.nodes a <;> rfl

theorem removeLink_noop_left (a b : String) (s : GState) (h : alookup s.nodes a = none) :
    removeLink a b s = s := by
  unfold removeLink; rw [h]

theorem removeLink_noop_right (a b : String) (s : GState) (h : alookup s.nodes b = none) :
    removeLink a b s = s := by
  unfold removeLink; rw [h]; cases alookup s.nodes a <;> rfl

theorem addLink_dup_noop (a b : String) (s : GState) (fm tm : ℕ)
    (ha : alookup s.nodes a = some fm) (hb : alookup s.nodes b = some tm)
    (hex : (s.links.any fun l => decide (sameEnds l fm tm)) = true) :
    addLink a b s = s := by
  simp only [addLink, ha, hb, hex, if_true]

theorem addLink_new (a b : String) (s : GState) (fm tm : ℕ)
    (ha : alookup s.nodes a = some fm) (hb : alookup s.nodes b = some tm)
    (hex : (s.links.any fun l => decide (sameEnds l fm tm)) = false) :
    addLink a b s =
      { s with
        nextId := s.nextId + 1,
        links := s.links ++ [⟨fm, tm, s.nextId, posOf s fm, posOf s tm⟩],
        sceneObjs := s.sceneObjs ++ [s.nextId] } := by
  simp only [addLink, ha, hb, hex, Bool.false_eq_true, if_false]

theorem removeFirst_sublist {α : Type} (p : α → Bool) (l : List α) :
    List.Sublist (removeFirst p l) l := by
  induction l with
  | nil => simp [removeFirst]
  | cons a rest ih =>
    by_cases h : p a
    · simp only [removeFirst, h, if_true]
      exact List.sublist_cons_self a rest
    · simp only [removeFirst, h, if_false]
      exact List.Sublist.cons₂ a ih

/-! ### Claim C10 — node scale rule at the read-back interface -/

/-- Claim C10: the per-frame scale emitted each tick for a node is exactly 1
when its connection count is 0 or 1 (ignoring `baseNodeScale` and
`linkScaleMultiplier`), and `baseNodeScale + connectionCount *
linkScaleMultiplier` when the connection count is at least 2. -/
theorem nodeScale_rule (baseNodeScale linkScaleMultiplier : ℚ)
    (counts : List (String × ℕ)) (uniqueId : String) :
    ((alookup counts uniqueId).getD 0 ≤ 1 →
      emittedScale baseNodeScale linkScaleMultiplier counts uniqueId = 1) ∧
    (2 ≤ (alookup counts uniqueId).getD 0 →
      emittedScale baseNodeScale linkScaleMultiplier counts uniqueId =
        baseNodeScale + ((alookup counts uniqueId).getD 0 : ℚ) * linkScaleMultiplier) := by
  constructor
  · intro h
    simp [emittedScale, calcLinkScale, h]
  · intro h
    have h' : ¬ (alookup counts uniqueId).getD 0 ≤ 1 := by omega
    simp [emittedScale, calcLinkScale, h']

/-- Witness for C10: a node with one connection gets scale 1 even with a
non-default base scale; a node with five connections gets the affine scale. -/
theorem nodeScale_rule_witness :
    emittedScale (7/2) (1/4) [("a", 1), ("b", 5)] "a" = 1 ∧
    emittedScale (7/2) (1/4) [("a", 1), ("b", 5)] "b" = 7/2 + (5 : ℚ) * (1/4) := by
  constructor
  · exact (nodeScale_rule (7/2) (1/4) [("a", 1), ("b", 5)] "a").1 (by decide)
  · have := (nodeScale_rule (7/2) (1/4) [("a", 1), ("b", 5)] "b").2 (by decide)
    simpa using this

/-! ### Claim C9 — invalid references are ignored -/

/-- Claim C9: `addLink` and `removeLink` with an endpoint id that is not a
live node return without modifying any state; both operations are total
functions of the model, so no fatal error is possible. -/
theorem invalidReference_noop (a b : String) (s : GState)
    (h : alookup s.nodes a = none ∨ alookup s.nodes b = none) :
    addLink a b s = s ∧ removeLink a b s = s := by
  rcases h with h | h
  · exact ⟨addLink_noop_left a b s h, removeLink_noop_left a b s h⟩
  · exact ⟨addLink_noop_right a b s h, removeLink_noop_right a b s h⟩

/-- Witness for C9: linking two ids on the empty store changes nothing. -/
theorem invalidReference_noop_witness :
    addLink "x" "y" GState.empty = GState.empty ∧
    removeLink "x" "y" GState.empty = GState.empty :=
  invalidReference_noop "x" "y" GState.empty (Or.inl rfl)

/-! ### Claim C5 — removeNode cascades links, leaves other kinematics alone -/

/-- Claim C5: `removeNode(id)` removes the node and every link having that
node's mesh as either endpoint in the same operation, and leaves the heap —
hence position and velocity of every other node — untouched. -/
theorem removeNode_cascades (uniqueId : String) (s : GState) (m : ℕ)
    (h : alookup s.nodes uniqueId = some m) :
    alookup (removeNode uniqueId s).nodes uniqueId = none ∧
    (removeNode uniqueId s).links =
      s.links.filter (fun l => ¬(l.fromM = m ∨ l.toM = m)) ∧
    (∀ l ∈ (removeNode uniqueId s).links, l.fromM ≠ m ∧ l.toM ≠ m) ∧
    (removeNode uniqueId s).heap = s.heap ∧
    (∀ uniqueId₂, uniqueId₂ ≠ uniqueId →
      alookup (removeNode uniqueId s).nodes uniqueId₂ = alookup s.nodes uniqueId₂) := by
  unfold removeNode
  rw [h]
  refine ⟨alookup_adel_self _ _, rfl, ?_, rfl, fun u hu => alookup_adel_other _ _ _ hu⟩
  intro l hl
  have hmem := List.of_mem_filter hl
  simp only [decide_not, Bool.not_eq_true', decide_eq_false_iff_not] at hmem
  exact ⟨fun hf => hmem (Or.inl hf), fun ht => hmem (Or.inr ht)⟩

/-- Witness for C5: removing B from the A–B–C chain deletes both links,
keeps the heap, and leaves A and C in the node map. -/
theorem removeNode_cascades_witness :
    alookup (removeNode "B" sABC).nodes "B" = none ∧
    (removeNode "B" sABC).links =
      sABC.links.filter (fun l => ¬(l.fromM = 1 ∨ l.toM = 1)) ∧
    (removeNode "B" sABC).heap = sABC.heap := by
  refine ⟨(removeNode_cascades "B" sABC 1 (by decide)).1,
    (removeNode_cascades "B" sABC 1 (by decide)).2.1,
    (removeNode_cascades "B" sABC 1 (by decide)).2.2.2.1⟩

/-! ### Claim C1 — mutation idempotence -/

/-- Counterexample to C1 as stated: calling `addNode` twice with the same
id and identical random draws does not leave the store in the state one call
produces — the second call allocates a fresh mesh, appends a second entry to
the reverse-lookup map (the first call's entry keyed by the old mesh stays
behind), and leaves the old mesh in the scene. -/
theorem addNode_not_idempotent :
    c1Twice.nodeToUniqueId = [(0, "a"), (1, "a")] ∧
    c1Once.nodeToUniqueId = [(0, "a")] ∧
    c1Twice ≠ c1Once := by
  refine ⟨by decide, by decide, ?_⟩
  intro h
  have : c1Twice.nodeToUniqueId = c1Once.nodeToUniqueId := by rw [h]
  revert this
  decide

/-- Claim C1 (amended): `addLink` is idempotent — a second call with the
same pair, in either argument order, leaves the store exactly as one call —
and every store operation preserves the invariant that at most one link
joins any unordered pair of meshes.  (`addNode` with an already-used id is
not a no-op: it overwrites the entry with a fresh mesh and appends a second
reverse-lookup entry.) -/
theorem addLink_idem_and_unique (cf : Option String → ColorQ) (rPhase rSpeed : ℚ)
    (a b : String) (fp dn : Option String) (s : GState)
    (h : noDupLinks s.links) :
    addLink a b (addLink a b s) = addLink a b s ∧
    addLink b a (addLink a b s) = addLink a b s ∧
    noDupLinks (addLink a b s).links ∧
    noDupLinks (addNode cf rPhase rSpeed a fp dn s).links ∧
    noDupLinks (removeNode a s).links ∧
    noDupLinks (removeLink a b s).links ∧
    noDupLinks (renameNode a b fp s).links := by
  have hswap : ∀ (l : Link) (fm tm : ℕ), sameEnds l tm fm ↔ sameEnds l fm tm :=
    fun l fm tm => or_comm
  refine ⟨?_, ?_, ?_, ?_, ?_, ?_, ?_⟩
  · -- addLink a b ∘ addLink a b = addLink a b
    cases ha : alookup s.nodes a with
    | none => rw [addLink_noop_left a b s ha, addLink_noop_left a b s ha]
    | some fm =>
      cases hb : alookup s.nodes b with
      | none => rw [addLink_noop_right a b s hb, addLink_noop_right a b s hb]
      | some tm =>
        cases hex : (s.links.any fun l => decide (sameEnds l fm tm)) with
        | true =>
          rw [addLink_dup_noop a b s fm tm ha hb hex, addLink_dup_noop a b s fm tm ha hb hex]
        | false =>
          rw [addLink_new a b s fm tm ha hb hex]
          exact addLink_dup_noop a b _ fm tm ha hb
            (by simp [List.any_append, sameEnds])
  · -- addLink b a ∘ addLink a b = addLink a b
    cases ha : alookup s.nodes a with
    | none => rw [addLink_noop_left a b s ha, addLink_noop_right b a s ha]
    | some fm =>
      cases hb : alookup s.nodes b with
      | none => rw [addLink_noop_right a b s hb, addLink_noop_left b a s hb]
      | some tm =>
        cases hex : (s.links.any fun l => decide (sameEnds l fm tm)) with
        | true =>
          rw [addLink_dup_noop a b s fm tm ha hb hex]
          refine addLink_dup_noop b a s tm fm hb ha ?_
          rw [List.any_eq_true] at hex ⊢
          obtain ⟨l, hl, hp⟩ := hex
          refine ⟨l, hl, ?_⟩
          rw [decide_eq_true_eq] at hp ⊢
          exact (hswap l fm tm).mpr hp
        | false =>
          rw [addLink_new a b s fm tm ha hb hex]
          exact addLink_dup_noop b a _ tm fm hb ha
            (by simp [List.any_append, sameEnds])
  · -- addLink preserves the unordered-pair invariant
    cases ha : alookup s.nodes a with
    | none => rw [addLink_noop_left a b s ha]; exact h
    | some fm =>
      cases hb : alookup s.nodes b with
      | none => rw [addLink_noop_right a b s hb]; exact h
      | some tm =>
        cases hex : (s.links.any fun l => decide (sameEnds l fm tm)) with
        | true => rw [addLink_dup_noop a b s fm tm ha hb hex]; exact h
        | false =>
          rw [addLink_new a b s fm tm ha hb hex]
          have hnone : ∀ l ∈ s.links, ¬ sameEnds l fm tm := by
            intro l hl hcon
            have : (s.links.any fun l => decide (sameEnds l fm tm)) = true :=
              List.any_eq_true.mpr ⟨l, hl, decide_eq_true hcon⟩
            rw [hex] at this
            exact Bool.false_ne_true this
          refine (List.pairwise_append).mpr ⟨h, List.pairwise_singleton _ _, ?_⟩
          intro l hl l' hl'
          rcases List.mem_singleton.mp hl' with rfl
          exact hnone l hl
  · -- addNode leaves the link list untouched
    exact h
  · -- removeNode filters links, the invariant survives on a sublist
    simp only [removeNode]
    cases alookup s.nodes a with
    | none => exact h
    | some m => exact List.Pairwise.sublist (List.filter_sublist _) h
  · -- removeLink splices one link out, the invariant survives on a sublist
    cases ha : alookup s.nodes a with
    | none => rw [removeLink_noop_left a b s ha]; exact h
    | some fm =>
      cases hb : alookup s.nodes b with
      | none => rw [removeLink_noop_right a b s hb]; exact h
      | some tm =>
        simp only [removeLink, ha, hb]
        cases List.find? (fun l => decide (sameEnds l fm tm)) s.links with
        | none => exact h
        | some l => exact List.Pairwise.sublist (removeFirst_sublist _ _) h
  · -- renameNode leaves the link list untouched
    simp only [renameNode]
    cases alookup s.nodes a with
    | none => exact h
    | some m =>
      cases alookup s.heap m with
      | none => exact h
      | some md => exact h

/-- Witness for C1 (amended), on the concrete A–B–C store: re-adding the
A–B link in either order changes nothing and the duplicate-link invariant
holds after the call. -/
theorem addLink_idem_and_unique_witness :
    addLink "A" "B" (addLink "A" "B" sABC) = addLink "A" "B" sABC ∧
    addLink "B" "A" (addLink "A" "B" sABC) = addLink "A" "B" sABC ∧
    noDupLinks (addLink "A" "B" sABC).links := by
  refine ⟨(addLink_idem_and_unique cfWhite 0 0 "A" "B" none none sABC (by decide)).1,
    (addLink_idem_and_unique cfWhite 0 0 "A" "B" none none sABC (by decide)).2.1,
    (addLink_idem_and_unique cfWhite 0 0 "A" "B" none none sABC (by decide)).2.2.1⟩

/-! ### Claim C4 — renameNode -/

/-- Counterexample to C4 as stated: renaming "X" (which owns file path "p")
to "Y" with the optional `newPath` argument omitted does not move the
file-path entry to the new key — the old entry is deleted and no entry
exists under either key afterwards. -/
theorem renameNode_drops_path :
    alookup sX.nodeFilePaths "X" = some "p" ∧
    alookup (renameNode "X" "Y" none sX).nodeFilePaths "Y" = none ∧
    alookup (renameNode "X" "Y" none sX).nodeFilePaths "X" = none := by
  decide

/-- Claim C4 (amended): `renameNode(oldId, newId, newPath?)` keeps the
node's mesh — hence its position and velocity — exactly, moves the
color-pulse entry from the old key to the new key, and leaves the link list
untouched while the mesh now answers to `newId`, so links previously
touching `oldId` report `newId`.  The file-path entry is not moved: the old
key's entry is always deleted, the new key gets an entry only when
`newPath` is supplied; the label entry is removed, not moved (it is
recreated on the next update pass). -/
theorem renameNode_moves (oldId newId : String) (fp : Option String) (s : GState)
    (m : ℕ) (md : MeshData) (pd : PulseData)
    (hne : newId ≠ oldId)
    (h : alookup s.nodes oldId = some m)
    (hm : alookup s.heap m = some md)
    (hpd : alookup s.colorPulseData oldId = some pd) :
    alookup (renameNode oldId newId fp s).nodes newId = some m ∧
    alookup (renameNode oldId newId fp s).nodes oldId = none ∧
    alookup (renameNode oldId newId fp s).heap m = some
      { md with
        userUniqueId := newId,
        userFilePath := match fp with | some p => some p | none => md.userFilePath } ∧
    (renameNode oldId newId fp s).links = s.links ∧
    alookup (renameNode oldId newId fp s).colorPulseData newId = some pd ∧
    alookup (renameNode oldId newId fp s).colorPulseData oldId = none ∧
    alookup (renameNode oldId newId fp s).nodeFilePaths oldId = none ∧
    (∀ p, fp = some p →
      alookup (renameNode oldId newId fp s).nodeFilePaths newId = some p) ∧
    (fp = none →
      alookup (renameNode oldId newId fp s).nodeFilePaths newId =
        alookup s.nodeFilePaths newId) ∧
    oldId ∉ (renameNode oldId newId fp s).labels := by
  have hs : renameNode oldId newId fp s =
      { s with
        heap := aset m
          { md with
            userUniqueId := newId,
            userFilePath := match fp with | some p => some p | none => md.userFilePath }
          s.heap,
        nodes := aset newId m (adel oldId s.nodes),
        colorPulseData := aset newId pd (adel oldId s.colorPulseData),
        nodeFilePaths :=
          match fp with
          | some p => aset newId p (adel oldId s.nodeFilePaths)
          | none => adel oldId s.nodeFilePaths,
        labels := s.labels.filter (fun t => t ≠ oldId) } := by
    simp only [renameNode, h, hm, hpd]
  rw [hs]
  refine ⟨alookup_aset_self _ _ _, ?_, alookup_aset_self _ _ _, rfl,
    alookup_aset_self _ _ _, ?_, ?_, ?_, ?_, ?_⟩
  · rw [alookup_aset_other _ _ _ _ (Ne.symm hne)]
    exact alookup_adel_self _ _
  · rw [alookup_aset_other _ _ _ _ (Ne.symm hne)]
    exact alookup_adel_self _ _
  · cases fp with
    | some p =>
      show alookup (aset newId p (adel oldId s.nodeFilePaths)) oldId = none
      rw [alookup_aset_other _ _ _ _ (Ne.symm hne)]
      exact alookup_adel_self _ _
    | none =>
      exact alookup_adel_self _ _
  · intro p hp
    subst hp
    exact alookup_aset_self _ _ _
  · intro hp
    subst hp
    exact alookup_adel_other _ _ _ hne
  · intro hmem
    have := List.of_mem_filter hmem
    simp at this

theorem sX_unfold :
    sX = { nextId := 1, heap := [(0, mdX)], nodes := [("X", 0)],
           nodeToUniqueId := [(0, "X")], links := [], sceneObjs := [0],
           colorPulseData := [("X", pdX)], nodeFilePaths := [("X", "p")],
           labels := [] } := by
  norm_num [sX, addNode, GState.empty, aset, alookup, cfWhite,
    calculateBrightnessMultiplier, ColorQ.scale, V3Q.zero, mdX, pdX]

/-- Witness for C4 (amended), renaming "X" to "Y" with new path "q": the
mesh keeps its kinematic state, the pulse entry moves, the links are
untouched, the old file-path entry is gone. -/
theorem renameNode_moves_witness :
    alookup (renameNode "X" "Y" (some "q") sX).nodes "Y" = some 0 ∧
    alookup (renameNode "X" "Y" (some "q") sX).heap 0 = some
      { mdX with userUniqueId := "Y", userFilePath := some "q" } ∧
    alookup (renameNode "X" "Y" (some "q") sX).colorPulseData "Y" = some pdX ∧
    alookup (renameNode "X" "Y" (some "q") sX).nodeFilePaths "X" = none := by
  have h1 : alookup sX.nodes "X" = some 0 := by rw [sX_unfold]; rfl
  have h2 : alookup sX.heap 0 = some mdX := by rw [sX_unfold]; rfl
  have h3 : alookup sX.colorPulseData "X" = some pdX := by rw [sX_unfold]; rfl
  refine ⟨(renameNode_moves "X" "Y" (some "q") sX 0 mdX pdX (by decide) h1 h2 h3).1,
    (renameNode_moves "X" "Y" (some "q") sX 0 mdX pdX (by decide) h1 h2 h3).2.2.1,
    (renameNode_moves "X" "Y" (some "q") sX 0 mdX pdX (by decide) h1 h2 h3).2.2.2.2.1,
    (renameNode_moves "X" "Y" (some "q") sX 0 mdX pdX (by decide) h1 h2 h3).2.2.2.2.2.2.1⟩

/-! ### Claim C2 — identity resolver contract -/

theorem suffixSearch_shape (m : List (String × String)) (base : String) :
    ∀ fuel c, ∃ k, c ≤ k ∧ suffixSearch m base fuel c = base ++ " " ++ Nat.repr k := by
  intro fuel
  induction fuel with
  | zero => intro c; exact ⟨c, le_refl c, rfl⟩
  | succ f ih =>
    intro c
    by_cases h : (alookup m (base ++ " " ++ Nat.repr c)).isSome = true
    · obtain ⟨k, hk, he⟩ := ih (c + 1)
      refine ⟨k, by omega, ?_⟩
      simp only [suffixSearch, h, if_true]
      exact he
    · exact ⟨c, le_refl c, by simp [suffixSearch, h]⟩

/-- Counterexample to C2 as stated: ids are not globally unique across live
paths.  After resolving basename "a" twice (ids "a" and "a (b)"), resolving
the basename "a (b)" for a third live path hands out the already-taken id
"a (b)" verbatim — first occurrences of a basename are used without any
collision check against existing ids. -/
theorem generateUniqueNodeId_collision :
    resB.1 = "a (b)" ∧
    resC.1 = "a (b)" ∧
    alookup resC.2.pathToUniqueId "b/a" = some "a (b)" ∧
    alookup resC.2.pathToUniqueId "c/a (b)" = some "a (b)" ∧
    ("b/a" : String) ≠ "c/a (b)" := by
  decide

/-- Claim C2 (amended): resolution is idempotent per path — a registered
path returns its stored id and leaves the resolver untouched, and a repeated
call returns what the first call returned; the first occurrence of a
basename yields the basename verbatim; the Nth occurrence (N>1) yields the
basename suffixed with its parent folder name, and when that string is
already a taken id, a numeric suffix (starting from 1) is appended.  Global
uniqueness across live paths does not hold in general (first occurrences
skip the collision check), as the counterexample shows. -/
theorem generateUniqueNodeId_contract (basename path : String) (r : Resolver) :
    (∀ i, alookup r.pathToUniqueId path = some i →
      generateUniqueNodeId basename path r = (i, r)) ∧
    (generateUniqueNodeId basename path (generateUniqueNodeId basename path r).2 =
      generateUniqueNodeId basename path r) ∧
    (alookup r.pathToUniqueId path = none →
      (alookup r.nodeNameCounter basename).getD 0 = 0 →
      (generateUniqueNodeId basename path r).1 = basename) ∧
    (alookup r.pathToUniqueId path = none →
      (alookup r.nodeNameCounter basename).getD 0 ≠ 0 →
      alookup r.uniqueIdToPath (basename ++ " (" ++ parentFolder path ++ ")") = none →
      (generateUniqueNodeId basename path r).1 =
        basename ++ " (" ++ parentFolder path ++ ")") ∧
    (alookup r.pathToUniqueId path = none →
      (alookup r.nodeNameCounter basename).getD 0 ≠ 0 →
      (alookup r.uniqueIdToPath (basename ++ " (" ++ parentFolder path ++ ")")).isSome →
      ∃ k, 1 ≤ k ∧ (generateUniqueNodeId basename path r).1 =
        basename ++ " (" ++ parentFolder path ++ ")" ++ " " ++ Nat.repr k) := by
  have hgen : ∀ (r' : Resolver) (i : String),
      alookup r'.pathToUniqueId path = some i →
      generateUniqueNodeId basename path r' = (i, r') := by
    intro r' i hi
    simp only [generateUniqueNodeId, hi]
  refine ⟨hgen r, ?_, ?_, ?_, ?_⟩
  · cases hreg : alookup r.pathToUniqueId path with
    | some i => rw [hgen r i hreg, hgen r i hreg]
    | none =>
      have hpost : alookup (generateUniqueNodeId basename path r).2.pathToUniqueId path =
          some (generateUniqueNodeId basename path r).1 := by
        simp only [generateUniqueNodeId, hreg]
        exact alookup_aset_self _ _ _
      rw [hgen _ _ hpost]
  · intro hreg hcount
    simp only [generateUniqueNodeId, hreg, hcount, if_pos rfl, if_true]
  · intro hreg hcount hfree
    simp only [generateUniqueNodeId, hreg, if_neg hcount, disambiguate, hfree,
      Option.isSome_none, Bool.false_eq_true, if_false]
  · intro hreg hcount htaken
    obtain ⟨k, hk, he⟩ :=
      suffixSearch_shape r.uniqueIdToPath
        (basename ++ " (" ++ parentFolder path ++ ")") (r.uniqueIdToPath.length + 1) 1
    refine ⟨k, hk, ?_⟩
    simp only [generateUniqueNodeId, hreg, if_neg hcount, disambiguate, htaken, if_true]
    exact he

/-- Witness for C2 (amended): a registered path returns its stored id and
state; a fresh basename keeps its bare name; a repeated basename whose
folder-suffixed candidate is free gets `basename (folder)`; one whose
candidate is taken gets a numeric suffix. -/
theorem generateUniqueNodeId_contract_witness :
    generateUniqueNodeId "a" "f/a" resA = ("a", resA) ∧
    (generateUniqueNodeId "z" "q/z" resA).1 = "z" ∧
    (generateUniqueNodeId "a" "g/a" resC.2).1 = "a (g)" ∧
    (∃ k, 1 ≤ k ∧ (generateUniqueNodeId "a" "q/b/a" resC.2).1 =
      "a (b)" ++ " " ++ Nat.repr k) := by
  refine ⟨(generateUniqueNodeId_contract "a" "f/a" resA).1 "a" (by decide),
    (generateUniqueNodeId_contract "z" "q/z" resA).2.2.1 (by decide) (by decide),
    (generateUniqueNodeId_contract "a" "g/a" resC.2).2.2.2.1 (by decide) (by decide)
      (by decide),
    (generateUniqueNodeId_contract "a" "q/b/a" resC.2).2.2.2.2 (by decide) (by decide)
      (by decide)⟩

/-! ### Claims C7 and C8 — particle pool -/

theorem spawnParticle_maxParticles (rSpeed : ℚ) (lf lt : ℕ) (s : PSys) :
    (spawnParticle rSpeed lf lt s).maxParticles = s.maxParticles := by
  unfold spawnParticle
  by_cases h : s.particles.length ≥ s.maxParticles
  · rw [if_pos h]
  · rw [if_neg h]
    cases s.pool.findIdx? (fun visible => visible = false) <;> rfl

theorem spawnParticle_bound (rSpeed : ℚ) (lf lt : ℕ) (s : PSys)
    (h : s.particles.length ≤ s.maxParticles) :
    (spawnParticle rSpeed lf lt s).particles.length ≤ s.maxParticles := by
  unfold spawnParticle
  by_cases hge : s.particles.length ≥ s.maxParticles
  · rw [if_pos hge]; exact h
  · rw [if_neg hge]
    cases s.pool.findIdx? (fun visible => visible = false) with
    | none => exact h
    | some i =>
      show (s.particles ++ [_]).length ≤ s.maxParticles
      rw [List.length_append, List.length_singleton]
      omega

theorem update_maxParticles (dt t : ℚ) (anyLinks : Bool) (s : PSys) :
    (update dt t anyLinks s).maxParticles = s.maxParticles := rfl

theorem update_bound (dt t : ℚ) (anyLinks : Bool) (s : PSys) :
    (update dt t anyLinks s).particles.length ≤ s.particles.length := by
  show ((s.particles.map (advanceParticle dt)).filter _).length ≤ s.particles.length
  calc ((s.particles.map (advanceParticle dt)).filter
          (fun p => ¬ retiredP p)).length
      ≤ (s.particles.map (advanceParticle dt)).length := List.length_filter_le _ _
    _ = s.particles.length := List.length_map _ _

/-- Claim C7: the in-flight particle count never exceeds `maxParticles`:
a spawn attempt at the maximum, or with no idle pool slot, is rejected and
leaves the particle system unchanged, and the bound is preserved by every
spawn and every update step. -/
theorem particle_conservation (rSpeed : ℚ) (lf lt : ℕ) (dt t : ℚ) (anyLinks : Bool)
    (s : PSys) (h : s.particles.length ≤ s.maxParticles) :
    (s.particles.length = s.maxParticles → spawnParticle rSpeed lf lt s = s) ∧
    (s.pool.all (fun visible => visible = true) → spawnParticle rSpeed lf lt s = s) ∧
    (spawnParticle rSpeed lf lt s).particles.length ≤ s.maxParticles ∧
    (update dt t anyLinks s).particles.length ≤ s.maxParticles := by
  refine ⟨?_, ?_, spawnParticle_bound rSpeed lf lt s h, le_trans (update_bound dt t anyLinks s) h⟩
  · intro heq
    unfold spawnParticle
    rw [if_pos (le_of_eq heq.symm)]
  · intro hall
    have hnone : s.pool.findIdx? (fun visible => visible = false) = none := by
      rw [List.findIdx?_eq_none_iff]
      intro v hv
      rw [List.all_eq_true] at hall
      have hv' : v = true := by simpa using hall v hv
      simp [hv']
    unfold spawnParticle
    by_cases hge : s.particles.length ≥ s.maxParticles
    · rw [if_pos hge]
    · rw [if_neg hge, hnone]

/-- Witness for C7: on a pool with one live particle and capacity 2, a spawn
stays within the bound and an update step does too. -/
theorem particle_conservation_witness :
    (spawnParticle 0 5 6 psW).particles.length ≤ 2 ∧
    (update (1/4) 100 true psW).particles.length ≤ 2 := by
  refine ⟨(particle_conservation 0 5 6 (1/4) 100 true psW (by decide)).2.2.1,
    (particle_conservation 0 5 6 (1/4) 100 true psW (by decide)).2.2.2⟩

/-- Claim C8: `setMaxParticles(n)` rebuilds the pool: the live-particle list
becomes empty, the pool is recreated as `n` idle slots, and under any
subsequent sequence of spawn attempts and update steps the live count never
exceeds `n`. -/
theorem setMaxParticles_rebuild (n : ℕ) (s : PSys) (ops : List POp) :
    (setMaxParticles n s).particles = [] ∧
    (setMaxParticles n s).pool = List.replicate n false ∧
    (setMaxParticles n s).maxParticles = n ∧
    (applyPOps ops (setMaxParticles n s)).particles.length ≤ n := by
  refine ⟨rfl, rfl, rfl, ?_⟩
  have hinv : ∀ (ops' : List POp) (s' : PSys),
      s'.particles.length ≤ s'.maxParticles → s'.maxParticles = n →
      (applyPOps ops' s').particles.length ≤ n := by
    intro ops'
    induction ops' with
    | nil =>
      intro s' hle hmax
      simpa [applyPOps, hmax] using hle
    | cons op rest ih =>
      intro s' hle hmax
      show (applyPOps rest (applyPOp s' op)).particles.length ≤ n
      cases op with
      | spawn rS lf lt =>
        refine ih (spawnParticle rS lf lt s') ?_ ?_
        · rw [spawnParticle_maxParticles]
          exact spawnParticle_bound rS lf lt s' hle
        · rw [spawnParticle_maxParticles]
          exact hmax
      | upd dt t anyLinks =>
        refine ih (update dt t anyLinks s') ?_ ?_
        · rw [update_maxParticles]
          exact le_trans (update_bound dt t anyLinks s') hle
        · rw [update_maxParticles]
          exact hmax
  exact hinv ops (setMaxParticles n s) (by simp [setMaxParticles, initializeParticlePool,
    disposePool, clearParticles]) rfl

/-! ### Real-vector lemmas -/

theorem V3R.zero_add (v : V3R) : V3R.add V3R.zero v = v := by
  cases v; simp [V3R.add, V3R.zero]

theorem V3R.smul_assoc (a b : ℝ) (v : V3R) :
    V3R.smul a (V3R.smul b v) = V3R.smul (a * b) v := by
  cases v; simp [V3R.smul, mul_assoc]

theorem lengthSq_smul (c : ℝ) (v : V3R) : lengthSq (V3R.smul c v) = c ^ 2 * lengthSq v := by
  cases v; simp [lengthSq, V3R.smul]; ring

theorem lengthV_smul (c : ℝ) (v : V3R) : lengthV (V3R.smul c v) = |c| * lengthV v := by
  rw [lengthV, lengthSq_smul, Real.sqrt_mul (sq_nonneg c), Real.sqrt_sq_eq_abs, lengthV]

/-! ### Claim C6 — repulsion singularity guard -/

/-- Claim C6: a pair of nodes closer than the 0.1 epsilon contributes no
repulsion at all (the guard fires before any division, so no force component
is computed from a near-zero distance); at distance at least 0.1 the pair
contributes a vector of magnitude `repulsion / distance²` along the
separation vector, added to one endpoint's force and subtracted from the
other's. -/
theorem repulsion_guard (repulsion : ℝ) (pa pb fa fb : V3R) :
    (distanceTo pa pb < 1/10 →
      repulsionPairUpdate repulsion pa pb fa fb = (fa, fb)) ∧
    (1/10 ≤ distanceTo pa pb → 0 ≤ repulsion →
      repulsionPairUpdate repulsion pa pb fa fb =
        (V3R.add fa (repulsionContribution repulsion pa pb),
         V3R.sub fb (repulsionContribution repulsion pa pb)) ∧
      repulsionContribution repulsion pa pb =
        V3R.smul (repulsion / (distanceTo pa pb * distanceTo pa pb) * (1 / distanceTo pa pb))
          (V3R.sub pa pb) ∧
      lengthV (repulsionContribution repulsion pa pb) =
        repulsion / (distanceTo pa pb * distanceTo pa pb)) := by
  constructor
  · intro h
    simp only [repulsionPairUpdate]
    rw [if_pos h]
  · intro h hr
    have hd : (0 : ℝ) < distanceTo pa pb := lt_of_lt_of_le (by norm_num) h
    have hnlt : ¬ distanceTo pa pb < 1/10 := not_lt.mpr h
    have hcontrib : repulsionContribution repulsion pa pb =
        V3R.smul (repulsion / (distanceTo pa pb * distanceTo pa pb))
          (normalizeV (V3R.sub pa pb)) := by
      simp only [repulsionContribution, repulsionPairUpdate]
      rw [if_neg hnlt]
      exact V3R.zero_add _
    have hlen_sub : lengthV (V3R.sub pa pb) = distanceTo pa pb := rfl
    refine ⟨?_, ?_, ?_⟩
    · simp only [repulsionPairUpdate]
      rw [if_neg hnlt, hcontrib]
    · rw [hcontrib]
      simp only [normalizeV, hlen_sub]
      rw [V3R.smul_assoc]
    · rw [hcontrib]
      simp only [normalizeV, hlen_sub]
      rw [V3R.smul_assoc, lengthV_smul, hlen_sub]
      have habs : |repulsion / (distanceTo pa pb * distanceTo pa pb) * (1 / distanceTo pa pb)| =
          repulsion / (distanceTo pa pb * distanceTo pa pb) * (1 / distanceTo pa pb) := by
        apply abs_of_nonneg
        positivity
      rw [habs]
      field_simp
      ring

/-- Witness for C6: two nodes at distance exactly 1 with repulsion
coefficient 2 exchange a force of magnitude exactly 2. -/
theorem repulsion_guard_witness :
    (1/10 : ℝ) ≤ distanceTo pa0 pb0 ∧
    lengthV (repulsionContribution 2 pa0 pb0) = 2 := by
  have hd : distanceTo pa0 pb0 = 1 := by
    simp only [distanceTo, lengthV, lengthSq, V3R.sub, pa0, pb0]
    norm_num [Real.sqrt_one]
  have h1 : (1/10 : ℝ) ≤ distanceTo pa0 pb0 := by rw [hd]; norm_num
  refine ⟨h1, ?_⟩
  have happ := (repulsion_guard 2 pa0 pb0 V3R.zero V3R.zero).2 h1 (by norm_num)
  rw [happ.2.2, hd]
  norm_num

/-! ### Claim C3 — freeze state machine with hysteresis -/

theorem postVel_n0 : postIntegrationVel 0 2 n0 = ⟨1/10000, 0, 0⟩ := by
  have hv1 : V3R.add n0.vel n0.force = (⟨1/10000, 0, 0⟩ : V3R) := by
    simp only [n0, V3R.add, V3R.zero]
    norm_num
  have hlen : lengthV (⟨1/10000, 0, 0⟩ : V3R) = 1/10000 := by
    simp only [lengthV, lengthSq]
    rw [show ((1:ℝ)/10000 * (1/10000) + 0 * 0 + 0 * 0) = (1/10000)^2 by ring,
      Real.sqrt_sq (by norm_num)]
  simp only [postIntegrationVel, hv1]
  rw [if_neg (by norm_num : ¬ (0:ℝ) > 0)]
  rw [hlen]
  rw [if_neg (by norm_num : ¬ (1:ℝ)/10000 > 2)]

/-- Counterexample to C3 as stated: with the freeze policy on and threshold
0.001, the node `n0` is frozen by the tick although its squared net force
(1/40000) does not fall under the squared settle threshold (1/1000000) — the
code freezes whenever the squared force is under 100× the squared threshold,
not under the threshold itself. -/
theorem freeze_force_window :
    (updateNodePhysics true 0 2 (1/1000) n0).frozen = true ∧
    ¬ (lengthSq n0.force < (1/1000) * (1/1000)) := by
  constructor
  · have hfroz : n0.frozen = false := rfl
    simp only [updateNodePhysics, hfroz, Bool.false_eq_true, if_false, postVel_n0, if_true]
    rw [if_pos ?hc]
    case hc =>
      constructor
      · show lengthSq ⟨1/10000, 0, 0⟩ < (1/1000) * (1/1000)
        norm_num [lengthSq]
      · show lengthSq n0.force < (1/1000) * (1/1000) * 100
        norm_num [lengthSq, n0]
  · norm_num [lengthSq, n0]

/-- Claim C3 (amended): with the freeze policy enabled, an Active node
transitions to Frozen in a tick exactly when its squared post-integration
speed falls under the squared settle threshold AND its squared net force
falls under 100× the squared settle threshold (not the threshold itself); a
Frozen node is excluded from integration (position and velocity untouched);
it returns to Active within the tick exactly when its squared net force
exceeds 100× the squared settle threshold. -/
theorem freeze_hysteresis (friction maxSpeed thr : ℝ) (n : PNode) :
    (n.frozen = false →
      ((updateNodePhysics true friction maxSpeed thr n).frozen = true ↔
        (lengthSq (postIntegrationVel friction maxSpeed n) < thr * thr ∧
         lengthSq n.force < thr * thr * 100))) ∧
    (n.frozen = true →
      (updateNodePhysics true friction maxSpeed thr n).pos = n.pos ∧
      (updateNodePhysics true friction maxSpeed thr n).vel = n.vel) ∧
    (n.frozen = true →
      ((updateNodePhysics true friction maxSpeed thr n).frozen = false ↔
        lengthSq n.force > thr * thr * 100)) := by
  refine ⟨?_, ?_, ?_⟩
  · intro hn
    simp only [updateNodePhysics, hn, Bool.false_eq_true, if_false, if_true]
    by_cases hc : (lengthSq (postIntegrationVel friction maxSpeed n) < thr * thr ∧
        lengthSq n.force < thr * thr * 100)
    · rw [if_pos hc]
      simpa using hc
    · rw [if_neg hc]
      simpa using hc
  · intro hn
    simp only [updateNodePhysics, hn, if_true]
    by_cases hc : lengthSq n.force > thr * thr * 100
    · rw [if_pos hc]
      exact ⟨rfl, rfl⟩
    · rw [if_neg hc]
      exact ⟨rfl, rfl⟩
  · intro hn
    simp only [updateNodePhysics, hn, if_true]
    by_cases hc : lengthSq n.force > thr * thr * 100
    · rw [if_pos hc]
      simpa using hc
    · rw [if_neg hc]
      simp only [hn]
      simpa using hc

/-- Witness for C3 (amended): the frozen node `n1` under a unit force is
excluded from integration yet returns to Active in the same tick, and the
active node `n0` freezes. -/
theorem freeze_hysteresis_witness :
    (updateNodePhysics true 0 2 (1/1000) n1).frozen = false ∧
    (updateNodePhysics true 0 2 (1/1000) n1).pos = n1.pos ∧
    (updateNodePhysics true 0 2 (1/1000) n1).vel = n1.vel ∧
    (updateNodePhysics true 0 2 (1/1000) n0).frozen = true := by
  have hforce : lengthSq n1.force > (1/1000) * (1/1000) * 100 := by
    norm_num [lengthSq, n1]
  refine ⟨((freeze_hysteresis 0 2 (1/1000) n1).2.2 rfl).mpr hforce,
    ((freeze_hysteresis 0 2 (1/1000) n1).2.1 rfl).1,
    ((freeze_hysteresis 0 2 (1/1000) n1).2.1 rfl).2,
    ((freeze_hysteresis 0 2 (1/1000) n0).1 rfl).mpr ⟨?_, ?_⟩⟩
  · rw [postVel_n0]
    norm_num [lengthSq]
  · norm_num [lengthSq, n0]

end Furia
